import Mathlib

/-!
Verification of the market-research-agent job orchestration core.

The data model and the pure client-side helpers are embedded from the
TypeScript sources (`src/frontend/src/lib/api.ts`,
`src/frontend/src/components/StatusStepper.tsx`, the Sidebar component,
the report/activity poll pages).  The backend job store, pipeline
executor, Q&A limiter and export formatter are not part of the shipped
sources; where a claim depends on them they are modelled from the spec,
with a doc comment saying so.
-/

namespace MarketResearchAgent

/-! Job status and kind, from `src/frontend/src/lib/api.ts`. -/

inductive JobStatus where
  | queued
  | searching
  | analyzing
  | compiling
  | completed
  | failed
  deriving DecidableEq, Fintype

inductive JobKind where
  | research
  | crawl
  | extract
  | search
  deriving DecidableEq

structure Source where
  url : String
  title : String
  deriving DecidableEq

inductive Relevance where
  | high
  | medium
  | low
  deriving DecidableEq

structure Trend where
  title : String
  description : String
  relevance : Relevance
  deriving DecidableEq

structure SWOT where
  strengths : List String
  weaknesses : List String
  opportunities : List String
  threats : List String
  deriving DecidableEq

/-- Report field set of `ResearchReport` in `src/frontend/src/lib/api.ts`
(overview, SWOT, trends, competitive landscape, key findings, sources). -/
structure ResearchReport where
  company_overview : String
  swot : SWOT
  trends : List Trend
  competitive_landscape : String
  key_findings : List String
  sources : List Source
  deriving DecidableEq

structure QAPair where
  question : String
  answer : String
  deriving DecidableEq

/-- An entry of the `results` array inside `operation_result`; a field is
`none` when it is missing or not a string (the TS code reads it as
`unknown` and substitutes a default). -/
structure RawResultEntry where
  url : Option String
  title : Option String
  raw_content : Option String
  content : Option String
  deriving DecidableEq

/-- The untyped `operation_result` payload; `results` is `none` when the
field is absent or not an array, an element is `none` when it is not an
object. -/
structure OperationResult where
  results : Option (List (Option RawResultEntry))
  deriving DecidableEq

/-- The `ResearchJob` record of `src/frontend/src/lib/api.ts`. -/
structure Job where
  job_id : String
  job_kind : JobKind
  status : JobStatus
  query : String
  type : String
  created_at : String
  completed_at : Option String
  duration_seconds : Option Int
  report : Option ResearchReport
  operation_result : Option OperationResult
  error : Option String
  qa_history : List QAPair
  qa_remaining : Int
  deriving DecidableEq

/-- `STATUS_ORDER` from `src/frontend/src/components/StatusStepper.tsx`. -/
def STATUS_ORDER : JobStatus → Int
  | .queued => 0
  | .searching => 1
  | .analyzing => 2
  | .compiling => 3
  | .completed => 4
  | .failed => -1

/-! Sidebar history helpers, embedded from the Sidebar component. -/

def MAX_HISTORY_ITEMS : Nat := 20

/-- `parseJobKind` from the Sidebar component: keeps `"crawl"`,
`"extract"` and `"research"`, every other value falls through to
`"research"`. -/
def parseJobKind (value : String) : JobKind :=
  if value = "crawl" then JobKind.crawl
  else if value = "extract" then JobKind.extract
  else if value = "research" then JobKind.research
  else JobKind.research

structure HistoryItem where
  id : String
  title : String
  date : String
  kind : JobKind
  deriving DecidableEq

/-- The dedup loop inside `mergeHistory`: walks the concatenated list,
skips empty or already-seen ids, and stops right after the accumulated
output reaches `MAX_HISTORY_ITEMS` entries (`count` is the number of
entries emitted so far). -/
def mergeLoop : List HistoryItem → List String → Nat → List HistoryItem
  | [], _, _ => []
  | item :: rest, seen, count =>
    if item.id = "" ∨ item.id ∈ seen then
      mergeLoop rest seen count
    else if MAX_HISTORY_ITEMS ≤ count + 1 then
      [item]
    else
      item :: mergeLoop rest (item.id :: seen) (count + 1)

/-- `mergeHistory` from the Sidebar component: concatenates the primary
(API) history before the fallback (local) history and dedups by id with
a cap of `MAX_HISTORY_ITEMS`. -/
def mergeHistory (primary fallback : List HistoryItem) : List HistoryItem :=
  mergeLoop (primary ++ fallback) [] 0

/-- The link target chosen by the Sidebar for a history entry:
`/report/{id}` for research, `/activity/{id}` otherwise. -/
def historyHref (item : HistoryItem) : String :=
  if item.kind = JobKind.research then "/report/" ++ item.id
  else "/activity/" ++ item.id

/-! Facts about the merge loop. -/

theorem mergeLoop_length (items : List HistoryItem) :
    ∀ seen count, count < MAX_HISTORY_ITEMS →
      (mergeLoop items seen count).length + count ≤ MAX_HISTORY_ITEMS := by
  induction items with
  | nil => intro seen count h; simpa [mergeLoop] using Nat.le_of_lt h
  | cons item rest ih =>
    intro seen count h
    by_cases hskip : item.id = "" ∨ item.id ∈ seen
    · simpa [mergeLoop, hskip] using ih seen count h
    · by_cases hstop : MAX_HISTORY_ITEMS ≤ count + 1
      · have : count + 1 = MAX_HISTORY_ITEMS := Nat.le_antisymm h hstop
        simp [mergeLoop, hskip, hstop]
        omega
      · have h1 : count + 1 < MAX_HISTORY_ITEMS := Nat.lt_of_not_le hstop
        have := ih (item.id :: seen) (count + 1) h1
        simp [mergeLoop, hskip, hstop]
        omega

theorem mergeLoop_mem (items : List HistoryItem) :
    ∀ seen count x, x ∈ mergeLoop items seen count →
      x.id ≠ "" ∧ x.id ∉ seen ∧
        items.find? (fun y => y.id == x.id) = some x := by
  induction items with
  | nil => intro seen count x hx; simp [mergeLoop] at hx
  | cons item rest ih =>
    intro seen count x hx
    by_cases hskip : item.id = "" ∨ item.id ∈ seen
    · rw [mergeLoop, if_pos hskip] at hx
      obtain ⟨hne, hns, hfind⟩ := ih seen count x hx
      have hid : (item.id == x.id) = false := by
        rcases hskip with hemp | hmem
        · simp [hemp]
          intro hcontr
          exact hne hcontr.symm
        · simp
          intro hcontr
          exact hns (hcontr ▸ hmem)
      refine ⟨hne, hns, ?_⟩
      simp [List.find?, hid, hfind]
    · push_neg at hskip
      obtain ⟨hne0, hns0⟩ := hskip
      by_cases hstop : MAX_HISTORY_ITEMS ≤ count + 1
      · rw [mergeLoop, if_neg (by push_neg; exact ⟨hne0, hns0⟩), if_pos hstop] at hx
        simp at hx
        subst hx
        refine ⟨hne0, hns0, ?_⟩
        simp [List.find?]
      · rw [mergeLoop, if_neg (by push_neg; exact ⟨hne0, hns0⟩), if_neg hstop] at hx
        rcases List.mem_cons.mp hx with hx | hx
        · subst hx
          refine ⟨hne0, hns0, ?_⟩
          simp [List.find?]
        · obtain ⟨hne, hns, hfind⟩ := ih (item.id :: seen) (count + 1) x hx
          have hxid : x.id ≠ item.id := by
            intro hcontr
            exact hns (by simp [hcontr])
          have hns' : x.id ∉ seen := fun hmem => hns (by simp [hmem])
          have hid : (item.id == x.id) = false := by
            simp
            intro hcontr
            exact hxid hcontr.symm
          refine ⟨hne, hns', ?_⟩
          simp [List.find?, hid, hfind]

theorem mergeLoop_nodup (items : List HistoryItem) :
    ∀ seen count, ((mergeLoop items seen count).map HistoryItem.id).Nodup := by
  induction items with
  | nil => intro seen count; simp [mergeLoop]
  | cons item rest ih =>
    intro seen count
    by_cases hskip : item.id = "" ∨ item.id ∈ seen
    · simpa [mergeLoop, hskip] using ih seen count
    · by_cases hstop : MAX_HISTORY_ITEMS ≤ count + 1
      · simp [mergeLoop, hskip, hstop]
      · rw [mergeLoop, if_neg hskip, if_neg hstop]
        simp only [List.map_cons, List.nodup_cons]
        refine ⟨?_, ih (item.id :: seen) (count + 1)⟩
        intro hmem
        obtain ⟨y, hy, hyid⟩ := List.mem_map.mp hmem
        obtain ⟨-, hns, -⟩ := mergeLoop_mem rest (item.id :: seen) (count + 1) y hy
        exact hns (by simp [hyid])

theorem find_append_left {α : Type} (p : α → Bool) (l₁ l₂ : List α)
    (h : (l₁.find? p).isSome) : (l₁ ++ l₂).find? p = l₁.find? p := by
  induction l₁ with
  | nil => simp [List.find?] at h
  | cons a t ih =>
    cases hpa : p a with
    | true => simp [List.find?, hpa]
    | false =>
      simp only [List.find?, hpa] at h ⊢
      simpa using ih h

/-- Claim C9: `mergeHistory` returns a list with no duplicate job ids, at
most 20 entries, no empty ids; each retained entry is the first
occurrence of its id in primary-before-fallback order, so an id present
in both inputs appears once, with the primary entry's fields. -/
theorem mergeHistory_correct (primary fallback : List HistoryItem) :
    ((mergeHistory primary fallback).map HistoryItem.id).Nodup ∧
    (mergeHistory primary fallback).length ≤ 20 ∧
    (∀ x ∈ mergeHistory primary fallback, x.id ≠ "") ∧
    (∀ x ∈ mergeHistory primary fallback,
      (primary ++ fallback).find? (fun y => y.id == x.id) = some x) ∧
    (∀ x ∈ mergeHistory primary fallback,
      (∃ y ∈ primary, y.id = x.id) → x ∈ primary) := by
  have hlen := mergeLoop_length (primary ++ fallback) [] 0 (by simp [MAX_HISTORY_ITEMS])
  refine ⟨mergeLoop_nodup (primary ++ fallback) [] 0,
    by simpa [MAX_HISTORY_ITEMS] using hlen, ?_, ?_, ?_⟩
  · intro x hx
    exact (mergeLoop_mem (primary ++ fallback) [] 0 x hx).1
  · intro x hx
    exact (mergeLoop_mem (primary ++ fallback) [] 0 x hx).2.2
  · intro x hx ⟨y, hy, hyid⟩
    have hfind := (mergeLoop_mem (primary ++ fallback) [] 0 x hx).2.2
    have hsome : (primary.find? (fun y => y.id == x.id)).isSome := by
      rw [List.find?_isSome]
      exact ⟨y, hy, by simp [hyid]⟩
    rw [find_append_left _ _ _ hsome] at hfind
    exact List.mem_of_find?_eq_some hfind

/-- Claim C9 witness: concrete evaluation with an id shared between the
primary and fallback inputs. -/
theorem mergeHistory_correct_witness :
    (∃ y ∈ [({ id := "a", title := "fromApi", date := "d1", kind := JobKind.research } : HistoryItem)],
        y.id = ({ id := "a", title := "fromApi", date := "d1", kind := JobKind.research } : HistoryItem).id) ∧
    ({ id := "a", title := "fromApi", date := "d1", kind := JobKind.research } : HistoryItem) ∈
      [({ id := "a", title := "fromApi", date := "d1", kind := JobKind.research } : HistoryItem)] := by
  constructor
  · exact ⟨_, by simp, rfl⟩
  · have h := mergeHistory_correct
      [{ id := "a", title := "fromApi", date := "d1", kind := JobKind.research }]
      [{ id := "a", title := "fromLocal", date := "d2", kind := JobKind.crawl },
       { id := "", title := "junk", date := "d3", kind := JobKind.research }]
    exact h.2.2.2.2 _ (by decide) ⟨_, by simp, rfl⟩

/-- Claim C10: `parseJobKind` is total onto the kinds crawl, extract and
research; every other input, including the valid backend kind
`"search"`, maps to research, so a history entry with backend kind
`"search"` is linked to the report page. -/
theorem parseJobKind_total :
    (∀ v : String, parseJobKind v = JobKind.crawl ∨ parseJobKind v = JobKind.extract ∨
      parseJobKind v = JobKind.research) ∧
    parseJobKind "search" = JobKind.research ∧
    (∀ v : String, parseJobKind v ≠ JobKind.search) ∧
    (∀ i t d, historyHref ⟨i, t, d, parseJobKind "search"⟩ = "/report/" ++ i) := by
  refine ⟨?_, by decide, ?_, ?_⟩
  · intro v
    unfold parseJobKind
    split_ifs <;> simp
  · intro v
    unfold parseJobKind
    split_ifs <;> simp
  · intro i t d
    simp [historyHref, parseJobKind]

/-! Status state machine.  The Pipeline Executor that mutates `status`
is part of the backend, which is not among the shipped sources; the
transition relation is modelled from the spec over the source's
`STATUS_ORDER`. -/

/-- Modelled from the spec: a single status transition written by the
Pipeline Executor (backend code absent from the sources).  `status` only
moves forward along the `queued → searching → analyzing → compiling →
completed` order, or jumps from any non-terminal state directly to
`failed`; `completed` and `failed` are absorbing (no transition leaves
them). -/
def StatusStep (s t : JobStatus) : Prop :=
  (s ≠ JobStatus.completed ∧ s ≠ JobStatus.failed) ∧
    (t = JobStatus.failed ∨ (t ≠ JobStatus.failed ∧ STATUS_ORDER s < STATUS_ORDER t))

instance (s t : JobStatus) : Decidable (StatusStep s t) := by
  unfold StatusStep; infer_instance

/-- What one poll-to-poll observation of `get(id)` can see: the same
status again, or the result of one or more executor transitions
(`StatusStep` is transitive, so a composite of steps is again a step). -/
def StatusObs (s t : JobStatus) : Prop :=
  s = t ∨ StatusStep s t

instance (s t : JobStatus) : Decidable (StatusObs s t) := by
  unfold StatusObs; infer_instance

theorem statusStep_trans : Transitive StatusStep := by
  intro a b c hab hbc
  have h : ∀ x y z : JobStatus,
      StatusStep x y → StatusStep y z → StatusStep x z := by decide
  exact h a b c hab hbc

theorem statusObs_trans : Transitive StatusObs := by
  intro a b c hab hbc
  have h : ∀ x y z : JobStatus,
      StatusObs x y → StatusObs y z → StatusObs x z := by decide
  exact h a b c hab hbc

instance : IsTrans JobStatus StatusObs :=
  ⟨fun _ _ _ hab hbc => statusObs_trans hab hbc⟩

/-- Claim C1: status only moves forward along the `STATUS_ORDER` chain or
jumps from a non-terminal state to failed; completed and failed are
absorbing; hence any polled sequence of statuses is a prefix-consistent
path: pairwise related by observation, and constant after the first
terminal status. -/
theorem status_machine_correct :
    (∀ t, ¬ StatusStep JobStatus.completed t) ∧
    (∀ t, ¬ StatusStep JobStatus.failed t) ∧
    (∀ s t, StatusStep s t →
      t = JobStatus.failed ∨ STATUS_ORDER s < STATUS_ORDER t) ∧
    (∀ l : List JobStatus, List.Chain' StatusObs l → l.Pairwise StatusObs) ∧
    (∀ l : List JobStatus, List.Chain' StatusObs l →
      ∀ (i j : Fin l.length), (i : Nat) < (j : Nat) →
        (l.get i = JobStatus.completed ∨ l.get i = JobStatus.failed) →
        l.get j = l.get i) := by
  have habs : ∀ s t : JobStatus,
      (s = JobStatus.completed ∨ s = JobStatus.failed) → StatusObs s t → t = s := by
    decide
  refine ⟨by decide, by decide, ?_, ?_, ?_⟩
  · intro s t h
    rcases h.2 with h2 | h2
    · exact Or.inl h2
    · exact Or.inr h2.2
  · intro l h
    exact List.chain'_iff_pairwise.mp h
  · intro l h i j hij hterm
    have hpair := List.chain'_iff_pairwise.mp h
    have hobs : StatusObs (l.get i) (l.get j) :=
      List.pairwise_iff_get.mp hpair i j hij
    exact habs _ _ hterm hobs

/-- Claim C1 witness: a concrete transition out of `queued` is forward. -/
theorem status_machine_correct_witness :
    StatusStep JobStatus.queued JobStatus.searching ∧
    (JobStatus.searching = JobStatus.failed ∨
      STATUS_ORDER JobStatus.queued < STATUS_ORDER JobStatus.searching) := by
  constructor
  · decide
  · exact status_machine_correct.2.2.1 JobStatus.queued JobStatus.searching (by decide)

/-! Job Store.  The backend store (create/get/list/delete) is not among
the shipped sources; it is modelled from the spec, keyed by opaque job
id. -/

/-- Error taxonomy of the spec (§7). -/
inductive ApiError where
  | notFound
  | validation (msg : String)
  | quotaExceeded
  | notReady
  | upstream (msg : String)
  deriving DecidableEq

def JobStore := List (String × Job)

def lookupJob : JobStore → String → Option Job
  | [], _ => none
  | (k, j) :: rest, id => if k = id then some j else lookupJob rest id

/-- Modelled from the spec: `get(id)` of the Job Store — fails with
NotFound if absent. -/
def getJob (store : JobStore) (id : String) : Except ApiError Job :=
  match lookupJob store id with
  | none => Except.error ApiError.notFound
  | some j => Except.ok j

/-- Modelled from the spec: `delete(id)` of the Job Store — removes the
record; fails with NotFound if already absent, leaving the store
untouched. -/
def deleteJob (store : JobStore) (id : String) :
    Except ApiError Unit × JobStore :=
  match lookupJob store id with
  | none => (Except.error ApiError.notFound, store)
  | some _ => (Except.ok (), List.filter (fun p => p.1 != id) store)

def isSpaceChar (c : Char) : Bool :=
  c == ' ' || c == '\t' || c == '\n' || c == '\r'

/-- Model of JavaScript `String.prototype.trim`: strip leading and
trailing whitespace (ASCII whitespace suffices for the model). -/
def jsTrim (s : String) : String :=
  String.mk (((s.data.dropWhile isSpaceChar).reverse.dropWhile
    isSpaceChar).reverse)

/-- Modelled from the spec: `create(kind, query)` of the Job Store —
validation error on an empty (trimmed) query with the store untouched,
otherwise a fresh record with `status = queued`, returned immediately.
The frontend guard in the home page's submit handler additionally drops
empty queries before they reach the API. -/
def create (store : JobStore) (freshId : String) (kind : JobKind)
    (query now : String) : Except ApiError Job × JobStore :=
  if jsTrim query = "" then
    (Except.error (ApiError.validation "query must not be empty"), store)
  else
    let j : Job :=
      { job_id := freshId, job_kind := kind, status := JobStatus.queued,
        query := query, type := "company", created_at := now,
        completed_at := none, duration_seconds := none, report := none,
        operation_result := none, error := none, qa_history := [],
        qa_remaining := 0 }
    (Except.ok j, (freshId, j) :: store)

/-- Guard in `handleSubmit` on the home page: the request is submitted
only when the trimmed input is non-empty. -/
def handleSubmitStartsJob (inputValue : String) : Bool :=
  jsTrim inputValue != ""

theorem lookup_filter_self (store : JobStore) (id : String) :
    lookupJob (List.filter (fun p => p.1 != id) store) id = none := by
  induction store with
  | nil => rfl
  | cons p rest ih =>
    rw [List.filter_cons]
    by_cases h : p.1 = id
    · simpa [h] using ih
    · have hb : (p.1 != id) = true := by simp [h]
      rw [hb, if_pos rfl]
      simpa [lookupJob, h] using ih

theorem lookup_filter_other (store : JobStore) (id id' : String)
    (h : id' ≠ id) :
    lookupJob (List.filter (fun p => p.1 != id) store) id' =
      lookupJob store id' := by
  induction store with
  | nil => rfl
  | cons p rest ih =>
    rw [List.filter_cons]
    by_cases hp : p.1 = id
    · have hne : p.1 ≠ id' := fun hc => h (hc.symm.trans hp)
      have hb : (p.1 != id) = false := by simp [hp]
      rw [hb]
      simp only [Bool.false_eq_true, if_false]
      rw [ih]
      simp [lookupJob, hne]
    · have hb : (p.1 != id) = true := by simp [hp]
      rw [hb, if_pos rfl]
      simp [lookupJob, ih]

/-- Claim C5: deleting a present id removes the record, after which both
`get(id)` and a second `delete(id)` fail with NotFound; deleting an
absent id fails with NotFound without mutating the store; other ids are
unaffected. -/
theorem delete_correct (store : JobStore) (id : String) :
    (lookupJob store id = none →
      deleteJob store id = (Except.error ApiError.notFound, store)) ∧
    (∀ j, lookupJob store id = some j →
      (deleteJob store id).1 = Except.ok () ∧
      getJob (deleteJob store id).2 id = Except.error ApiError.notFound ∧
      deleteJob (deleteJob store id).2 id =
        (Except.error ApiError.notFound, (deleteJob store id).2) ∧
      (∀ id', id' ≠ id →
        lookupJob (deleteJob store id).2 id' = lookupJob store id')) := by
  constructor
  · intro h
    simp [deleteJob, h]
  · intro j h
    have hfilter := lookup_filter_self store id
    refine ⟨by simp [deleteJob, h], ?_, ?_, ?_⟩
    · simp [deleteJob, h, getJob, hfilter]
    · simp [deleteJob, h, hfilter]
    · intro id' hne
      simp [deleteJob, h, lookup_filter_other store id id' hne]

/-- A concrete queued research job, used by the closed witnesses. -/
def sampleJob : Job :=
  { job_id := "job-1", job_kind := JobKind.research,
    status := JobStatus.queued, query := "Acme Corp", type := "company",
    created_at := "t0", completed_at := none, duration_seconds := none,
    report := none, operation_result := none, error := none,
    qa_history := [], qa_remaining := 0 }

/-- Claim C5 witness: deleting the only record of a one-job store
succeeds and leaves `get` and a second `delete` failing with NotFound. -/
theorem delete_correct_witness :
    (deleteJob [("job-1", sampleJob)] "job-1").1 = Except.ok () ∧
    getJob (deleteJob [("job-1", sampleJob)] "job-1").2 "job-1" =
      Except.error ApiError.notFound ∧
    deleteJob (deleteJob [("job-1", sampleJob)] "job-1").2 "job-1" =
      (Except.error ApiError.notFound,
        (deleteJob [("job-1", sampleJob)] "job-1").2) := by
  have h := (delete_correct [("job-1", sampleJob)] "job-1").2 sampleJob
    (by simp [lookupJob])
  exact ⟨h.1, h.2.1, h.2.2.1⟩

theorem create_nonempty_queued (store : JobStore) (freshId : String)
    (kind : JobKind) (query now : String) (h : jsTrim query ≠ "") :
    ∃ j, create store freshId kind query now =
        (Except.ok j, (freshId, j) :: store) ∧
      j.status = JobStatus.queued ∧ j.job_id = freshId ∧
      j.job_kind = kind ∧ j.query = query ∧ j.report = none ∧
      j.error = none := by
  unfold create
  rw [if_neg h]
  exact ⟨_, rfl, rfl, rfl, rfl, rfl, rfl, rfl⟩

/-- Claim C8: for any create call, an empty (after trimming) query
yields a validation error and no record is added (and the frontend
submit guard drops it before the API call); a non-empty query yields a
fresh record with status queued. -/
theorem create_validates (store : JobStore) (freshId : String)
    (kind : JobKind) (query now : String) :
    (jsTrim query = "" →
      create store freshId kind query now =
        (Except.error (ApiError.validation "query must not be empty"), store) ∧
      handleSubmitStartsJob query = false) ∧
    (jsTrim query ≠ "" →
      ∃ j, create store freshId kind query now =
          (Except.ok j, (freshId, j) :: store) ∧
        j.status = JobStatus.queued ∧ j.job_id = freshId ∧
        j.job_kind = kind ∧ j.query = query ∧ j.report = none ∧
        j.error = none ∧ handleSubmitStartsJob query = true) := by
  constructor
  · intro h
    exact ⟨by simp [create, h], by simp [handleSubmitStartsJob, h]⟩
  · intro h
    obtain ⟨j, hj, h1, h2, h3, h4, h5, h6⟩ :=
      create_nonempty_queued store freshId kind query now h
    exact ⟨j, hj, h1, h2, h3, h4, h5, h6,
      by simp [handleSubmitStartsJob, h]⟩

/-- Claim C8 witness: a whitespace-only query is rejected with a
validation error and the store is unchanged. -/
theorem create_validates_witness :
    create [] "job-1" JobKind.research "  " "t0" =
      (Except.error (ApiError.validation "query must not be empty"), []) ∧
    handleSubmitStartsJob "  " = false :=
  (create_validates [] "job-1" JobKind.research "  " "t0").1 (by decide)

/-- Claim C10 witness: concrete evaluation of the totality clause. -/
theorem parseJobKind_total_witness :
    parseJobKind "xml" = JobKind.crawl ∨ parseJobKind "xml" = JobKind.extract ∨
      parseJobKind "xml" = JobKind.research :=
  parseJobKind_total.1 "xml"

/-! Q&A Limiter.  The backend limiter is not among the shipped sources;
`ask` is modelled from the spec (§4.4).  The spec requires the
check-then-decrement to be atomic, so every concurrent execution is
equivalent to a sequential interleaving of atomic `ask` calls, which is
what `runAsks` ranges over. -/

/-- Modelled from the spec: `ask(job_id, question)` of the Q&A Limiter —
NotReady unless the job is completed, QuotaExceeded when `qa_remaining`
is 0, otherwise decrement the counter and append to the history.
`answer` stands for the generation gateway's reply. -/
def ask (j : Job) (question answer : String) :
    Except ApiError (String × Int) × Job :=
  if j.status ≠ JobStatus.completed then (Except.error ApiError.notReady, j)
  else if j.qa_remaining = 0 then (Except.error ApiError.quotaExceeded, j)
  else
    let j' : Job := { j with qa_remaining := j.qa_remaining - 1,
                             qa_history := j.qa_history ++ [⟨question, answer⟩] }
    (Except.ok (answer, j'.qa_remaining), j')

/-- Run a sequence of `ask` calls (question, gateway reply), returning
the final job and the number of successful calls. -/
def runAsks : Job → List (String × String) → Job × Nat
  | j, [] => (j, 0)
  | j, qa :: rest =>
    let step := ask j qa.1 qa.2
    let next := runAsks step.2 rest
    (next.1,
      (match step.1 with
        | Except.ok _ => 1
        | Except.error _ => 0) + next.2)

theorem runAsks_invariant (qas : List (String × String)) :
    ∀ j : Job, j.status = JobStatus.completed → 0 ≤ j.qa_remaining →
      (runAsks j qas).1.status = JobStatus.completed ∧
      0 ≤ (runAsks j qas).1.qa_remaining ∧
      (runAsks j qas).1.qa_remaining =
        j.qa_remaining - (runAsks j qas).2 := by
  induction qas with
  | nil =>
    intro j hs hr
    exact ⟨hs, hr, by simp [runAsks]⟩
  | cons qa rest ih =>
    intro j hs hr
    by_cases hz : j.qa_remaining = 0
    · have hstep : ask j qa.1 qa.2 = (Except.error ApiError.quotaExceeded, j) := by
        simp [ask, hs, hz]
      obtain ⟨h1, h2, h3⟩ := ih j hs hr
      simp only [runAsks, hstep]
      exact ⟨h1, h2, by rw [h3]; push_cast; ring⟩
    · have hstep : ask j qa.1 qa.2 =
          (Except.ok (qa.2, j.qa_remaining - 1),
            { j with qa_remaining := j.qa_remaining - 1,
                     qa_history := j.qa_history ++ [⟨qa.1, qa.2⟩] }) := by
        simp [ask, hs, hz]
      have hr' : (0 : Int) ≤ j.qa_remaining - 1 := by
        have : j.qa_remaining ≠ 0 := hz
        omega
      obtain ⟨h1, h2, h3⟩ :=
        ih { j with qa_remaining := j.qa_remaining - 1,
                    qa_history := j.qa_history ++ [⟨qa.1, qa.2⟩] } hs hr'
      simp only [runAsks, hstep]
      refine ⟨h1, h2, ?_⟩
      rw [h3]
      push_cast
      ring

theorem runAsks_append (pre post : List (String × String)) :
    ∀ j, runAsks j (pre ++ post) =
      ((runAsks (runAsks j pre).1 post).1,
        (runAsks j pre).2 + (runAsks (runAsks j pre).1 post).2) := by
  induction pre with
  | nil => intro j; simp [runAsks]
  | cons qa rest ih =>
    intro j
    simp only [List.cons_append, runAsks, List.append_eq]
    rw [ih]
    simp [Nat.add_assoc]

/-- Claim C2: starting from the quota of 10 on a completed job,
`qa_remaining` stays non-negative, equals 10 minus the number of
successful asks, only decreases along any sequence of asks, at most 10
asks succeed, and once it is 0 every further ask fails with
QuotaExceeded leaving the job unchanged.  Concurrent calls are covered
because the spec makes the check-then-decrement atomic, so every
concurrent execution linearizes to such a sequence. -/
theorem qa_limiter_correct (j : Job) (hs : j.status = JobStatus.completed)
    (hq : j.qa_remaining = 10) (qas : List (String × String)) :
    0 ≤ (runAsks j qas).1.qa_remaining ∧
    (runAsks j qas).1.qa_remaining = 10 - ((runAsks j qas).2 : Int) ∧
    (runAsks j qas).2 ≤ 10 ∧
    (∀ pre post, qas = pre ++ post →
      (runAsks j qas).1.qa_remaining ≤ (runAsks j pre).1.qa_remaining) ∧
    ((runAsks j qas).1.qa_remaining = 0 → ∀ q a,
      (ask (runAsks j qas).1 q a).1 = Except.error ApiError.quotaExceeded ∧
      (ask (runAsks j qas).1 q a).2 = (runAsks j qas).1) := by
  have hr : (0 : Int) ≤ j.qa_remaining := by rw [hq]; norm_num
  obtain ⟨h1, h2, h3⟩ := runAsks_invariant qas j hs hr
  rw [hq] at h3
  refine ⟨h2, h3, ?_, ?_, ?_⟩
  · have := h3 ▸ h2
    omega
  · intro pre post hsplit
    obtain ⟨p1, p2, p3⟩ := runAsks_invariant pre j hs hr
    obtain ⟨q1, q2, q3⟩ := runAsks_invariant post (runAsks j pre).1 p1 p2
    rw [hsplit, runAsks_append pre post j]
    simp only
    rw [q3]
    have : (0 : Int) ≤ ((runAsks (runAsks j pre).1 post).2 : Int) := by positivity
    omega
  · intro hzero q a
    constructor
    · simp [ask, h1, hzero]
    · simp [ask, h1, hzero]

/-- A concrete completed job holding the full quota, for the witnesses. -/
def completedJob : Job :=
  { sampleJob with status := JobStatus.completed, qa_remaining := 10 }

/-- Claim C2 witness: one successful ask on a completed job with quota
10 leaves a non-negative remainder equal to 10 minus the success
count. -/
theorem qa_limiter_correct_witness :
    0 ≤ (runAsks completedJob [("q1", "a1")]).1.qa_remaining ∧
    (runAsks completedJob [("q1", "a1")]).1.qa_remaining =
      10 - ((runAsks completedJob [("q1", "a1")]).2 : Int) ∧
    (runAsks completedJob [("q1", "a1")]).2 ≤ 10 := by
  have h := qa_limiter_correct completedJob rfl rfl [("q1", "a1")]
  exact ⟨h.1, h.2.1, h.2.2.1⟩

/-! Export Formatter.  The backend formatter is not among the shipped
sources; it is modelled from the spec (§4.5, §6): the supported format
set is {structured-text, machine-readable, visual-document} (the HTTP
surface spells them md / json / pdf), NotFound takes precedence
(missing, not completed, or no report), and rendering is a pure
function of the report's fixed field set. -/

inductive ExportFormat where
  | structuredText
  | machineReadable
  | visualDocument
  deriving DecidableEq

/-- Modelled from the spec: parsing of the requested export format; only
the three supported names are accepted. -/
def parseExportFormat (s : String) : Option ExportFormat :=
  if s = "structured-text" then some ExportFormat.structuredText
  else if s = "machine-readable" then some ExportFormat.machineReadable
  else if s = "visual-document" then some ExportFormat.visualDocument
  else none

def renderLines (lines : List String) : String :=
  String.intercalate "\n" lines

/-- Modelled from the spec: deterministic structured-text rendering of
the fixed report field set (overview, SWOT, trends, competitive
landscape, key findings, sources). -/
def renderStructuredText (r : ResearchReport) : String :=
  "# Market Research Report\n\n## Overview\n" ++ r.company_overview ++
  "\n\n## SWOT\n### Strengths\n" ++ renderLines r.swot.strengths ++
  "\n### Weaknesses\n" ++ renderLines r.swot.weaknesses ++
  "\n### Opportunities\n" ++ renderLines r.swot.opportunities ++
  "\n### Threats\n" ++ renderLines r.swot.threats ++
  "\n\n## Trends\n" ++
    renderLines (r.trends.map (fun t => t.title ++ ": " ++ t.description)) ++
  "\n\n## Competitive Landscape\n" ++ r.competitive_landscape ++
  "\n\n## Key Findings\n" ++ renderLines r.key_findings ++
  "\n\n## Sources\n" ++
    renderLines (r.sources.map (fun s => s.title ++ " - " ++ s.url))

/-- Modelled from the spec: deterministic machine-readable rendering of
the same field set. -/
def renderMachineReadable (r : ResearchReport) : String :=
  renderLines
    [ "company_overview=" ++ r.company_overview,
      "strengths=" ++ String.intercalate ";" r.swot.strengths,
      "weaknesses=" ++ String.intercalate ";" r.swot.weaknesses,
      "opportunities=" ++ String.intercalate ";" r.swot.opportunities,
      "threats=" ++ String.intercalate ";" r.swot.threats,
      "trends=" ++ String.intercalate ";"
        (r.trends.map (fun t => t.title ++ ":" ++ t.description)),
      "competitive_landscape=" ++ r.competitive_landscape,
      "key_findings=" ++ String.intercalate ";" r.key_findings,
      "sources=" ++ String.intercalate ";"
        (r.sources.map (fun s => s.url)) ]

/-- Modelled from the spec: the visual-document rendering; section order
and content are fixed by the structured-text layout. -/
def renderVisualDocument (r : ResearchReport) : String :=
  "%PDF\n" ++ renderStructuredText r

def renderReport : ExportFormat → ResearchReport → String
  | ExportFormat.structuredText, r => renderStructuredText r
  | ExportFormat.machineReadable, r => renderMachineReadable r
  | ExportFormat.visualDocument, r => renderVisualDocument r

/-- Modelled from the spec: `export(job_id, format)` — NotFound if the
job is missing, not completed, or has no report; a Validation
(unsupported-format) error for a format outside the supported set;
otherwise the deterministic rendering of the report. -/
def exportReport (store : JobStore) (id : String) (format : String) :
    Except ApiError String :=
  match lookupJob store id with
  | none => Except.error ApiError.notFound
  | some j =>
    if j.status = JobStatus.completed then
      match j.report with
      | none => Except.error ApiError.notFound
      | some r =>
        match parseExportFormat format with
        | none => Except.error (ApiError.validation "unsupported format")
        | some f => Except.ok (renderReport f r)
    else Except.error ApiError.notFound

def isValidationError : Except ApiError String → Bool
  | Except.error (ApiError.validation _) => true
  | _ => false

/-- A concrete report, used by the export witnesses. -/
def sampleReport : ResearchReport :=
  { company_overview := "Acme overview",
    swot := { strengths := ["s"], weaknesses := ["w"],
              opportunities := ["o"], threats := ["t"] },
    trends := [{ title := "trend", description := "desc",
                 relevance := Relevance.high }],
    competitive_landscape := "landscape",
    key_findings := ["finding"],
    sources := [{ url := "https://example.com", title := "Example" }] }

/-- A completed research job holding a report. -/
def completedResearchJob : Job :=
  { completedJob with report := some sampleReport }

/-- A concrete raw gateway payload. -/
def samplePayload : OperationResult :=
  { results := some [some
      { url := some "https://e.com", title := some "T",
        raw_content := some "raw", content := some "c" }] }

/-- A completed search-kind job: `operation_result` is populated and
`report` is null, as the spec prescribes for non-research kinds. -/
def completedSearchJob : Job :=
  { sampleJob with
    job_kind := JobKind.search
    status := JobStatus.completed
    operation_result := some samplePayload }

/-- Claim C3: `export` fails with NotFound for every format whenever the
job is missing, not completed, or has no report; on a completed job
with a report every supported format succeeds, and the output depends
only on the report content (identical report content gives byte-equal
output, even across different jobs and stores). -/
theorem export_correct (store : JobStore) (id : String) :
    (∀ format : String,
      (lookupJob store id = none ∨
        (∃ j, lookupJob store id = some j ∧
          (j.status ≠ JobStatus.completed ∨ j.report = none))) →
      exportReport store id format = Except.error ApiError.notFound) ∧
    (∀ j r f format, lookupJob store id = some j →
      j.status = JobStatus.completed → j.report = some r →
      parseExportFormat format = some f →
      exportReport store id format = Except.ok (renderReport f r)) ∧
    (∀ (store' : JobStore) (id' : String) j j' r f format,
      lookupJob store id = some j → lookupJob store' id' = some j' →
      j.status = JobStatus.completed → j'.status = JobStatus.completed →
      j.report = some r → j'.report = some r →
      parseExportFormat format = some f →
      exportReport store id format = exportReport store' id' format) := by
  have hsucc : ∀ (st : JobStore) (i : String) j r f format,
      lookupJob st i = some j → j.status = JobStatus.completed →
      j.report = some r → parseExportFormat format = some f →
      exportReport st i format = Except.ok (renderReport f r) := by
    intro st i j r f format hj hstatus hreport hf
    simp [exportReport, hj, hstatus, hreport, hf]
  refine ⟨?_, fun j r f format => hsucc store id j r f format, ?_⟩
  · intro format h
    rcases h with h | ⟨j, hj, hbad⟩
    · simp [exportReport, h]
    · rcases hbad with hs | hr
      · simp [exportReport, hj, hs]
      · cases hcs : decide (j.status = JobStatus.completed) with
        | true =>
          have : j.status = JobStatus.completed := of_decide_eq_true hcs
          simp [exportReport, hj, this, hr]
        | false =>
          have : j.status ≠ JobStatus.completed := of_decide_eq_false hcs
          simp [exportReport, hj, this]
  · intro store' id' j j' r f format hj hj' hs hs' hr hr' hf
    rw [hsucc store id j r f format hj hs hr hf,
      hsucc store' id' j' r f format hj' hs' hr' hf]

/-- Claim C3 witness: concrete export of a completed research job in the
structured-text format. -/
theorem export_correct_witness :
    exportReport [("job-1", completedResearchJob)] "job-1" "structured-text" =
      Except.ok (renderReport ExportFormat.structuredText sampleReport) :=
  (export_correct [("job-1", completedResearchJob)] "job-1").2.1
    completedResearchJob sampleReport ExportFormat.structuredText
    "structured-text" (by simp [lookupJob]) rfl rfl (by decide)

/-- Claim C4 counterexample: a completed search-kind job has no report,
so `export(id, "xml")` fails with NotFound — an error, but not the
Validation/unsupported-format error the claim promises for every
completed job. -/
theorem export_xml_counterexample :
    completedSearchJob.status = JobStatus.completed ∧
    exportReport [("job-s", completedSearchJob)] "job-s" "xml" =
      Except.error ApiError.notFound ∧
    isValidationError
      (exportReport [("job-s", completedSearchJob)] "job-s" "xml") = false :=
  ⟨rfl, rfl, rfl⟩

/-- Claim C4 (amended): the supported format set is exactly
{structured-text, machine-readable, visual-document}; on a completed job
holding a report, any format outside this set (such as "xml") fails
with the Validation/unsupported-format error rather than producing an
artifact. -/
theorem export_format_set (store : JobStore) (id : String) :
    (∀ s : String, (parseExportFormat s).isSome = true ↔
      (s = "structured-text" ∨ s = "machine-readable" ∨
        s = "visual-document")) ∧
    (∀ j r, lookupJob store id = some j → j.status = JobStatus.completed →
      j.report = some r → ∀ format, parseExportFormat format = none →
      exportReport store id format =
        Except.error (ApiError.validation "unsupported format")) ∧
    parseExportFormat "xml" = none := by
  refine ⟨?_, ?_, by decide⟩
  · intro s
    unfold parseExportFormat
    split_ifs <;> simp_all
  · intro j r hj hstatus hreport format hf
    simp [exportReport, hj, hstatus, hreport, hf]

/-- Claim C4 witness: "xml" on a completed research job with a report
produces the unsupported-format validation error. -/
theorem export_format_set_witness :
    exportReport [("job-1", completedResearchJob)] "job-1" "xml" =
      Except.error (ApiError.validation "unsupported format") :=
  (export_format_set [("job-1", completedResearchJob)] "job-1").2.1
    completedResearchJob sampleReport (by simp [lookupJob]) rfl rfl
    "xml" (by decide)

/-! Activity page helpers, embedded from
`src/frontend/src/app/activity/[jobId]/page.tsx`. -/

structure TavilyResultItem where
  url : String
  title : String
  raw_content : String
  content : String
  deriving DecidableEq

/-- `normalizeResults`: reads the `results` array out of the untyped
`operation_result`, skipping non-object entries and defaulting
non-string fields to the empty string. -/
def normalizeResults : Option OperationResult → List TavilyResultItem
  | none => []
  | some op =>
    match op.results with
    | none => []
    | some raws =>
      raws.filterMap (fun e => e.map (fun item =>
        { url := item.url.getD "", title := item.title.getD "",
          raw_content := item.raw_content.getD "",
          content := item.content.getD "" }))

/-- `toMarkdown`: renders the normalized results, falling back through
`raw_content`, `content` and a placeholder. -/
def toMarkdown (results : List TavilyResultItem) : String :=
  if results.length = 0 then "No stored output found for this job."
  else
    String.intercalate "\n\n---\n\n" (results.map (fun result =>
      let header := if result.url = "" then "## Source"
        else "## Source: [" ++ result.url ++ "](" ++ result.url ++ ")"
      let body := if result.raw_content = "" then
          (if result.content = "" then "No content extracted."
           else result.content)
        else result.raw_content
      header ++ "\n\n" ++ body))

/-! The poll loop shared by the report and activity pages. -/

/-- `POLL_INTERVAL` from both poll pages (milliseconds). -/
def POLL_INTERVAL : Nat := 3000

/-- The loop's stop condition: the pages re-poll exactly while the
status is neither completed nor failed. -/
def isTerminal (s : JobStatus) : Bool :=
  s == JobStatus.completed || s == JobStatus.failed

/-- The poll recursion of the report and activity pages: fetch the job,
and while the returned status is non-terminal schedule another poll
after `POLL_INTERVAL` ms.  `f n` is the status returned by the n-th
fetch; `fuel` bounds the unrolling. -/
def pollFrom (f : Nat → JobStatus) (i : Nat) : Nat → List JobStatus
  | 0 => []
  | fuel + 1 =>
    f i :: (if isTerminal (f i) then [] else pollFrom f (i + 1) fuel)

theorem pollFrom_dropLast (f : Nat → JobStatus) :
    ∀ fuel i s, s ∈ (pollFrom f i fuel).dropLast → isTerminal s = false := by
  intro fuel
  induction fuel with
  | zero => intro i s hs; simp [pollFrom] at hs
  | succ n ih =>
    intro i s hs
    by_cases ht : isTerminal (f i)
    · simp [pollFrom, ht] at hs
    · rw [pollFrom, if_neg ht] at hs
      cases hrest : pollFrom f (i + 1) n with
      | nil => rw [hrest] at hs; simp at hs
      | cons a l =>
        rw [hrest] at hs
        rw [List.dropLast_cons₂] at hs
        rcases List.mem_cons.mp hs with hs | hs
        · rw [hs]; exact Bool.eq_false_iff.mpr ht
        · exact ih (i + 1) s (by rw [hrest]; exact hs)

theorem pollFrom_first_terminal (f : Nat → JobStatus) :
    ∀ (k fuel i : Nat), k < fuel → isTerminal (f (i + k)) = true →
      (∀ m, m < k → isTerminal (f (i + m)) = false) →
      pollFrom f i fuel = (List.range (k + 1)).map (fun n => f (i + n)) := by
  intro k
  induction k with
  | zero =>
    intro fuel i hk ht _
    cases fuel with
    | zero => omega
    | succ n =>
      have ht' : isTerminal (f i) = true := by simpa using ht
      rw [pollFrom, if_pos ht']
      simp [List.range_succ]
  | succ kk ih =>
    intro fuel i hk ht hlt
    cases fuel with
    | zero => omega
    | succ n =>
      have h0 : isTerminal (f i) = false := by simpa using hlt 0 (by omega)
      rw [pollFrom, if_neg (by simp [h0])]
      have ht' : isTerminal (f (i + 1 + kk)) = true := by
        have heq : i + 1 + kk = i + (kk + 1) := by omega
        rw [heq]; exact ht
      have hlt' : ∀ m, m < kk → isTerminal (f (i + 1 + m)) = false := by
        intro m hm
        have heq : i + 1 + m = i + (m + 1) := by omega
        rw [heq]; exact hlt (m + 1) (by omega)
      rw [ih n (i + 1) (by omega) ht' hlt']
      conv_rhs => rw [List.range_succ_eq_map]
      rw [List.map_cons, List.map_map]
      have hmaps : List.map (fun n => f (i + 1 + n)) (List.range (kk + 1)) =
          List.map ((fun n => f (i + n)) ∘ Nat.succ) (List.range (kk + 1)) :=
        List.map_congr_left (fun a _ => by
          simp only [Function.comp_apply]
          congr 1
          omega)
      rw [hmaps]
      rfl

/-- Claim C6: the client observes progress only by polling: the poll
interval is the fixed 3000 ms, job creation returns immediately with a
queued record, every polled status before the last one is non-terminal
(the page re-polls exactly while the status is non-terminal), and the
polled sequence is precisely the statuses up to and including the first
terminal one. -/
theorem polling_correct :
    POLL_INTERVAL = 3000 ∧
    (∀ (store : JobStore) (freshId : String) (kind : JobKind) (q now : String),
      jsTrim q ≠ "" → ∃ j, (create store freshId kind q now).1 = Except.ok j ∧
        j.status = JobStatus.queued) ∧
    (∀ (f : Nat → JobStatus) fuel i s,
      s ∈ (pollFrom f i fuel).dropLast → isTerminal s = false) ∧
    (∀ (f : Nat → JobStatus) k fuel, k < fuel → isTerminal (f k) = true →
      (∀ m, m < k → isTerminal (f m) = false) →
      pollFrom f 0 fuel = (List.range (k + 1)).map f) := by
  refine ⟨rfl, ?_, ?_, ?_⟩
  · intro store freshId kind q now h
    obtain ⟨j, hj, hstatus, -⟩ := create_nonempty_queued store freshId kind q now h
    exact ⟨j, by rw [hj], hstatus⟩
  · intro f fuel i s hs
    exact pollFrom_dropLast f fuel i s hs
  · intro f k fuel hk ht hlt
    have := pollFrom_first_terminal f k fuel 0 hk (by simpa using ht)
      (fun m hm => by simpa using hlt m hm)
    rw [this]
    apply List.map_congr_left
    intro a _
    simp

/-- Claim C6 witness: with statuses queued, searching, completed the
poller observes exactly the three of them and stops. -/
theorem polling_correct_witness :
    pollFrom
      (fun n => if n = 0 then JobStatus.queued
        else if n = 1 then JobStatus.searching else JobStatus.completed) 0 9 =
    (List.range 3).map
      (fun n => if n = 0 then JobStatus.queued
        else if n = 1 then JobStatus.searching else JobStatus.completed) :=
  polling_correct.2.2.2 _ 2 9 (by omega) (by decide) (by decide)

/-! Pipeline Executor for the simple kinds. -/

/-- Modelled from the spec: a Pipeline Executor run for a job of kind
search / crawl / extract — a single gateway call; on success the job
moves directly to completed with `operation_result` populated, on
failure to failed with `error` set.  The second component is the list
of statuses the record holds, in order. -/
def runSimpleJob (j : Job) (gateway : Except String OperationResult) :
    Job × List JobStatus :=
  match gateway with
  | Except.ok payload =>
    ({ j with
        status := JobStatus.completed
        operation_result := some payload },
      [j.status, JobStatus.completed])
  | Except.error e =>
    ({ j with
        status := JobStatus.failed
        error := some e },
      [j.status, JobStatus.failed])

/-- Claim C7: for a fresh job of a simple kind, a successful run makes a
single gateway call and moves the job directly from queued to
completed with `operation_result` holding the payload, never exposing
searching / analyzing / compiling; `report` stays null and the activity
page's `normalizeResults` reads the payload from `operation_result`. -/
theorem simple_kind_pipeline (j : Job) (payload : OperationResult)
    (_hkind : j.job_kind = JobKind.search ∨ j.job_kind = JobKind.crawl ∨
      j.job_kind = JobKind.extract)
    (hstatus : j.status = JobStatus.queued) (hreport : j.report = none) :
    (runSimpleJob j (Except.ok payload)).1.status = JobStatus.completed ∧
    (runSimpleJob j (Except.ok payload)).1.operation_result = some payload ∧
    (runSimpleJob j (Except.ok payload)).1.report = none ∧
    (runSimpleJob j (Except.ok payload)).2 =
      [JobStatus.queued, JobStatus.completed] ∧
    JobStatus.searching ∉ (runSimpleJob j (Except.ok payload)).2 ∧
    JobStatus.analyzing ∉ (runSimpleJob j (Except.ok payload)).2 ∧
    JobStatus.compiling ∉ (runSimpleJob j (Except.ok payload)).2 ∧
    normalizeResults (runSimpleJob j (Except.ok payload)).1.operation_result =
      normalizeResults (some payload) := by
  refine ⟨rfl, rfl, hreport, by simp [runSimpleJob, hstatus], ?_, ?_, ?_, rfl⟩
  all_goals simp [runSimpleJob, hstatus]

/-- A fresh queued search-kind job. -/
def queuedSearchJob : Job :=
  { sampleJob with job_kind := JobKind.search }

/-- Claim C7 witness: concrete run over the sample payload. -/
theorem simple_kind_pipeline_witness :
    (runSimpleJob queuedSearchJob (Except.ok samplePayload)).1.status =
      JobStatus.completed ∧
    (runSimpleJob queuedSearchJob (Except.ok samplePayload)).2 =
      [JobStatus.queued, JobStatus.completed] ∧
    (runSimpleJob queuedSearchJob (Except.ok samplePayload)).1.report = none := by
  have h := simple_kind_pipeline queuedSearchJob samplePayload (Or.inl rfl) rfl rfl
  exact ⟨h.1, h.2.2.2.1, h.2.2.1⟩

end MarketResearchAgent
